import Mathlib

/-!
Verification of the scraping pipeline in `src/Backend/ratemyprofessor.py`.

The file shallowly embeds the pipeline: pure helpers of the script become
Lean functions; the external collaborators (the supabase table store, the
browser, the HTTP client, the HTML parser) are modelled as explicit data
handed in through a `World` record, following the boundary description in
the specification.  Exceptions are modelled with `Except` / explicit crash
flags; the sequence of external calls the run issues is recorded as a list
of `Event`s.
-/

namespace RMP

/-- Python values as produced by `json.loads`, restricted to the JSON
fragment the scraper manipulates: `null`, booleans, arbitrary-precision
integers, strings without escape sequences, and objects.  JSON arrays and
floats are outside the model; every theorem below either hypothesises a
successful parse or evaluates on concrete inputs inside this fragment. -/
inductive PyVal where
  | null
  | bool (b : Bool)
  | int (n : Int)
  | str (s : String)
  | dict (entries : List (String × PyVal))

/-- Lookup in a Python dict modelled as an association list with unique
keys (the invariant `json.loads` guarantees): first match wins. -/
def dictGet : List (String × PyVal) → String → Option PyVal
  | [], _ => none
  | (k, v) :: rest, key => if k == key then some v else dictGet rest key

/-- Insertion into a Python dict: a duplicate key keeps its original
position but receives the new value (CPython semantics, which is what
`json.loads` uses when an object literal repeats a key). -/
def dictInsert : List (String × PyVal) → String → PyVal → List (String × PyVal)
  | [], k, v => [(k, v)]
  | (k1, v1) :: rest, k, v =>
    if k1 == k then (k1, v) :: rest else (k1, v1) :: dictInsert rest k v

/-- Build a Python dict from the key/value pairs of an object literal in
source order. -/
def mkPyDict (pairs : List (String × PyVal)) : List (String × PyVal) :=
  pairs.foldl (fun es kv => dictInsert es kv.1 kv.2) []

/-- Model of Python `value.get(key, dflt)`.  In the pipeline it is only
ever applied to dict values (the scan in `fetch_rating_distributions`
returns dicts only); on a non-dict the model returns the default. -/
def pyGetD (v : PyVal) (key : String) (dflt : PyVal) : PyVal :=
  match v with
  | .dict es => (dictGet es key).getD dflt
  | _ => dflt

/-- Python truthiness of a value (`if rating_distributions:`). -/
def pyTruthyVal : PyVal → Bool
  | .null => false
  | .bool b => b
  | .int n => n != 0
  | .str s => !s.isEmpty
  | .dict es => !es.isEmpty

/-- Python truthiness of an optional value: `None` is falsy. -/
def pyTruthy : Option PyVal → Bool
  | none => false
  | some v => pyTruthyVal v

/-! ### Model of `json.loads` (Python standard library) -/

/-- JSON insignificant whitespace characters. -/
def jsonWs (c : Char) : Bool := c == ' ' || c == '\t' || c == '\n' || c == '\r'

/-- Skip JSON whitespace. -/
def skipJsonWs : List Char → List Char
  | [] => []
  | c :: cs => if jsonWs c then skipJsonWs cs else c :: cs

/-- Parse the body of a JSON string after the opening quote; the model
rejects escape sequences (none occur in the payloads the claims concern).
Returns the content and the remainder after the closing quote. -/
def parseStrBody : List Char → Option (List Char × List Char)
  | [] => none
  | c :: cs =>
    if c == '"' then some ([], cs)
    else if c == '\\' then none
    else
      match parseStrBody cs with
      | some (s, r) => some (c :: s, r)
      | none => none

/-- Consume a run of decimal digits, accumulating their value. -/
def parseDigits : List Char → Nat → Nat × List Char
  | [], acc => (acc, [])
  | c :: cs, acc =>
    if c.isDigit then parseDigits cs (acc * 10 + (c.toNat - 48)) else (acc, c :: cs)

mutual

/-- Model of the `json.loads` value parser (fuelled recursive descent over
the fragment described at `PyVal`). -/
def parseVal : Nat → List Char → Option (PyVal × List Char)
  | 0, _ => none
  | fuel + 1, cs =>
    match skipJsonWs cs with
    | [] => none
    | c :: rest =>
      if c == '"' then
        match parseStrBody rest with
        | some (s, r) => some (.str (String.mk s), r)
        | none => none
      else if c == '{' then
        match skipJsonWs rest with
        | '}' :: r => some (.dict [], r)
        | cs2 =>
          match parseObjItems fuel cs2 with
          | some (es, r) => some (.dict (mkPyDict es), r)
          | none => none
      else if c == '-' then
        match rest with
        | d :: _ =>
          if d.isDigit then
            let (n, r) := parseDigits rest 0
            some (.int (-(Int.ofNat n)), r)
          else none
        | [] => none
      else if c.isDigit then
        let (n, r) := parseDigits (c :: rest) 0
        some (.int (Int.ofNat n), r)
      else if c == 't' then
        match rest with
        | 'r' :: 'u' :: 'e' :: r => some (.bool true, r)
        | _ => none
      else if c == 'f' then
        match rest with
        | 'a' :: 'l' :: 's' :: 'e' :: r => some (.bool false, r)
        | _ => none
      else if c == 'n' then
        match rest with
        | 'u' :: 'l' :: 'l' :: r => some (.null, r)
        | _ => none
      else none

/-- Parse the `"key": value (, "key": value)* }` tail of a JSON object
literal, returning the pairs in source order. -/
def parseObjItems : Nat → List Char → Option (List (String × PyVal) × List Char)
  | 0, _ => none
  | fuel + 1, cs =>
    match skipJsonWs cs with
    | '"' :: rest =>
      match parseStrBody rest with
      | some (k, r1) =>
        match skipJsonWs r1 with
        | ':' :: r2 =>
          match parseVal fuel r2 with
          | some (v, r3) =>
            match skipJsonWs r3 with
            | ',' :: r4 =>
              match parseObjItems fuel r4 with
              | some (es, r5) => some ((String.mk k, v) :: es, r5)
              | none => none
            | '}' :: r4 => some ([(String.mk k, v)], r4)
            | _ => none
          | none => none
        | _ => none
      | none => none
    | _ => none

end

/-- Model of `json.loads`: parse an entire string as one JSON value,
rejecting trailing garbage, as the standard library does. -/
def jsonParse (s : String) : Option PyVal :=
  match parseVal (s.length + 2) s.data with
  | some (v, rest) => if (skipJsonWs rest).isEmpty then some v else none
  | none => none

/-! ### Model of the two regular expressions of the Rating Extractor -/

/-- Consume a literal character sequence, returning the remainder. -/
def litAt : List Char → List Char → Option (List Char)
  | cs, [] => some cs
  | c :: cs, p :: ps => if c == p then litAt cs ps else none
  | [], _ :: _ => none

/-- Does the pattern `window.__RELAY_STORE__` (the `.` is an unescaped
regex dot, matching any character) match at the head of the input?
This is the script filter `re.compile of the marker pattern`. -/
def relayMarkerHere (cs : List Char) : Bool :=
  match litAt cs "window".data with
  | some (_ :: rest) => (litAt rest "__RELAY_STORE__".data).isSome
  | _ => false

/-- `re.search` of the marker pattern: does it match at any position? -/
def relayMarkerSearch : List Char → Bool
  | [] => false
  | c :: cs => relayMarkerHere (c :: cs) || relayMarkerSearch cs

/-- Characters matched by regex `\s`. -/
def reWsChar (c : Char) : Bool :=
  c == ' ' || c == '\t' || c == '\n' || c == '\r' || c == '\x0c' || c == '\x0b'

/-- Skip regex whitespace (`\s*` immediately followed by a non-`\s`
literal, so maximal munch coincides with the backtracking semantics). -/
def skipReWs : List Char → List Char
  | [] => []
  | c :: cs => if reWsChar c then skipReWs cs else c :: cs

/-- The non-greedy `.*?` of `({.*?});` under `re.DOTALL`: content up to the
first `};`, together with the remainder after the `;`. -/
def upToBraceSemi : List Char → Option (List Char × List Char)
  | [] => none
  | '}' :: ';' :: rest => some ([], rest)
  | c :: cs =>
    match upToBraceSemi cs with
    | some (a, r) => some (c :: a, r)
    | none => none

/-- Match `window\.__RELAY_STORE__\s*=\s*({.*?});` at the head of the
input, returning capture group 1 on success. -/
def relayAssignHere (cs : List Char) : Option (List Char) :=
  match litAt cs "window.__RELAY_STORE__".data with
  | none => none
  | some r1 =>
    match skipReWs r1 with
    | '=' :: r2 =>
      match skipReWs r2 with
      | '{' :: r3 =>
        match upToBraceSemi r3 with
        | some (content, _) => some ('{' :: content ++ ['}'])
        | none => none
      | _ => none
    | _ => none

/-- `re.search` of the assignment pattern: leftmost match wins. -/
def relayAssignSearch : List Char → Option (List Char)
  | [] => none
  | c :: cs =>
    match relayAssignHere (c :: cs) with
    | some g => some g
    | none => relayAssignSearch cs

/-- Group 1 of the re.search of the assignment pattern over `s`,
or `none` when the pattern does not match (in which case the Python code
calls `.group(1)` on `None` and raises `AttributeError`). -/
def extractJsonStr (s : String) : Option String :=
  (relayAssignSearch s.data).map String.mk

/-! ### The Rating Extractor (`fetch_rating_distributions`) -/

/-- A fetched profile page at the granularity the extractor reads it:
the text content of each script element, in document order (the HTML
parsing itself is the external BeautifulSoup boundary). -/
structure Page where
  scripts : List String
deriving DecidableEq

/-- The find call of the script tag filtered by the marker pattern:
first script whose text the marker pattern matches somewhere. -/
def findRelayScript (p : Page) : Option String :=
  p.scripts.find? (fun s => relayMarkerSearch s.data)

/-- The loop guard of the scan in `fetch_rating_distributions`:
isinstance of dict, and the value under key __typename equals the tag
string "ratingsDistribution". -/
def isRatingsDist : PyVal → Bool
  | .dict es =>
    match dictGet es "__typename" with
    | some (.str s) => s == "ratingsDistribution"
    | _ => false
  | _ => false

/-- The linear scan over `data.items()` that keeps the first value tagged
`ratingsDistribution` (the Python loop breaks at the first hit). -/
def findRatingsDist : List (String × PyVal) → Option PyVal
  | [] => none
  | (_, v) :: rest => if isRatingsDist v then some v else findRatingsDist rest

/-- `fetch_rating_distributions` applied to an already-fetched page body.
`Except.error` models an exception escaping the function: `AttributeError`
from `.group(1)` when the assignment pattern is absent (and, unreachably
here, from `.items()` on a non-dict), `JSONDecodeError` from
`json.loads`.  `Except.ok none` is the "no data" result. -/
def fetch_rating_distributions (page : Page) : Except String (Option PyVal) :=
  match findRelayScript page with
  | none => .ok none
  | some s =>
    match extractJsonStr s with
    | none => .error "AttributeError"
    | some js =>
      match jsonParse js with
      | none => .error "JSONDecodeError"
      | some (.dict entries) => .ok (findRatingsDist entries)
      | some _ => .error "AttributeError"

/-! ### Markup parsing of the Link Scraper -/

/-- A professor-card anchor as BeautifulSoup hands it to the loop in
`scrape_professor_links`: the stripped text of its name div when such a
div exists, and its `href` attribute when present. -/
structure Card where
  nameDiv : Option String
  href : Option String
deriving DecidableEq

/-- Rendering of a Python value into an f-string: `None` prints as the
four characters `None`. -/
def pyStrOfOpt : Option String → String
  | none => "None"
  | some s => s

/-- The fixed origin prepended to every scraped href. -/
def RMP_ORIGIN : String := "https://www.ratemyprofessors.com"

/-- A (name, profile link) pair produced by the Link Scraper. -/
structure ProfessorLink where
  name : String
  rmp_link : String
deriving DecidableEq

/-- The per-card body of the loop in `scrape_professor_links`: name from
the name div of the card, defaulting to `"Unknown"`; link from the
f-string concatenating the fixed origin with the rendered href. -/
def parseCard (c : Card) : ProfessorLink :=
  { name := match c.nameDiv with | some t => t | none => "Unknown"
    rmp_link := RMP_ORIGIN ++ pyStrOfOpt c.href }

/-- The full card-parsing loop: every card yields an entry. -/
def parseCards (cs : List Card) : List ProfessorLink :=
  cs.map parseCard

/-! ### The Persistence Upserter and the store model -/

/-- A row of the `professors` table, which is also the `professor_data`
record `main` builds (the table columns per the persistence boundary:
`name`, `rmp_link`, `rating_1_count` .. `rating_5_count`). -/
structure ProfessorData where
  name : String
  rmp_link : String
  rating_1_count : PyVal
  rating_2_count : PyVal
  rating_3_count : PyVal
  rating_4_count : PyVal
  rating_5_count : PyVal

/-- The `professor_data` dict literal in `main`: star `i` taken from key
`ri` of the ratings-distribution object, defaulting to `0`. -/
def mkProfessorData (p : ProfessorLink) (rd : PyVal) : ProfessorData :=
  { name := p.name
    rmp_link := p.rmp_link
    rating_1_count := pyGetD rd "r1" (.int 0)
    rating_2_count := pyGetD rd "r2" (.int 0)
    rating_3_count := pyGetD rd "r3" (.int 0)
    rating_4_count := pyGetD rd "r4" (.int 0)
    rating_5_count := pyGetD rd "r5" (.int 0) }

/-- Modelled from the spec: the remote `professors` table, an external
collaborator, as the list of its rows. -/
abbrev Store := List ProfessorData

/-- Modelled from the spec: `select star filtered by name = n` — the rows whose
`name` column equals `n` exactly. -/
def selectEqName (st : Store) (n : String) : List ProfessorData :=
  st.filter (fun r => r.name == n)

/-- Row count for a given name. -/
def countName (st : Store) (n : String) : Nat :=
  (selectEqName st n).length

/-- Modelled from the spec: `update(professor_data) filtered by name = n` — every
row matching the filter receives all supplied column values. -/
def updateEqName (st : Store) (n : String) (d : ProfessorData) : Store :=
  st.map (fun r => if r.name == n then d else r)

/-- External calls the run issues, in order. -/
inductive Event where
  | probe
  | navigate (url : String)
  | httpGet (url : String)
  | storeSelect (n : String)
  | storeUpdate (n : String)
  | storeInsert (n : String)
  | driverQuit
deriving DecidableEq

/-- The upsert of `main` (lines 146–153): select by name; update when the
result is non-empty, insert otherwise.  Returns the new store and the
store calls issued. -/
def upsert (st : Store) (d : ProfessorData) : Store × List Event :=
  let matched := selectEqName st d.name
  if matched.isEmpty then
    (st ++ [d], [Event.storeSelect d.name, Event.storeInsert d.name])
  else
    (updateEqName st d.name d, [Event.storeSelect d.name, Event.storeUpdate d.name])

/-! ### The Orchestrator -/

/-- The external world of one run: the probe outcome, the professor cards the
fully paginated search page contains, the profile page each URL fetches
(`none`: the HTTP GET itself raises), and whether the store round-trips
for a given professor name raise. -/
structure World where
  probeOk : Bool
  cards : List Card
  pages : String → Option Page
  storeFail : String → Bool

/-- The search-results URL `main` scrapes. -/
def BASE_URL : String := "https://www.ratemyprofessors.com/search/professors/971?q=*&did=11"

/-- `scrape_professor_links` as the run sees it: parse the cards of the
fully loaded page (browser driving and pagination are the external
boundary). -/
def scrape_professor_links (w : World) : List ProfessorLink :=
  parseCards w.cards

/-- `fetch_rating_distributions` applied to the rmp_link, including the
HTTP GET: a missing page models `requests.get` raising. -/
def fetchOutcome (w : World) (p : ProfessorLink) : Except String (Option PyVal) :=
  match w.pages p.rmp_link with
  | none => .error "RequestException"
  | some page => fetch_rating_distributions page

/-- Did the call return normally? -/
def exOk : Except String (Option PyVal) → Bool
  | .ok _ => true
  | .error _ => false

/-- Outcome of a (partial) run: the store, the calls issued, and whether
an uncaught exception escaped. -/
structure RunOut where
  store : Store
  events : List Event
  crashed : Bool

/-- One iteration of the professor loop in `main`.  The fetch is outside
the `try` block, so its exceptions crash the iteration; the store
round-trips are inside it, so a store failure is caught after the select
is issued and the loop continues with the store unchanged. -/
def profStep (w : World) (st : Store) (p : ProfessorLink) : RunOut :=
  match fetchOutcome w p with
  | .error _ => ⟨st, [Event.httpGet p.rmp_link], true⟩
  | .ok rd =>
    if pyTruthy rd then
      if w.storeFail p.name then
        ⟨st, [Event.httpGet p.rmp_link, Event.storeSelect p.name], false⟩
      else
        match rd with
        | some v =>
          let u := upsert st (mkProfessorData p v)
          ⟨u.1, Event.httpGet p.rmp_link :: u.2, false⟩
        | none => ⟨st, [Event.httpGet p.rmp_link], false⟩
    else ⟨st, [Event.httpGet p.rmp_link], false⟩

/-- The professor loop of `main`: sequential, stopping only when an
uncaught exception escapes an iteration. -/
def runProfs (w : World) : Store → List ProfessorLink → RunOut
  | st, [] => ⟨st, [], false⟩
  | st, p :: ps =>
    let s := profStep w st p
    if s.crashed then s
    else
      let r := runProfs w s.store ps
      ⟨r.store, s.events ++ r.events, r.crashed⟩

/-- `main`: probe the store (returning immediately on failure), scrape
the search page, then run the professor loop. -/
def mainRun (w : World) (st : Store) : RunOut :=
  if w.probeOk then
    let r := runProfs w st (scrape_professor_links w)
    ⟨r.store, Event.probe :: Event.navigate BASE_URL :: r.events, r.crashed⟩
  else ⟨st, [Event.probe], false⟩

/-- The `__main__` block: `main()` then `driver.quit()`, with no
`try/finally` — the teardown only runs when `main` returns normally. -/
def programRun (w : World) (st : Store) : RunOut :=
  let m := mainRun w st
  if m.crashed then m else ⟨m.store, m.events ++ [Event.driverQuit], false⟩

/-- Does the loop, run on this professor list, ever take the write path
for name `n` before crashing?  (Mirrors `profStep` branch for branch;
used to characterise row counts.) -/
def writesName (w : World) (n : String) : List ProfessorLink → Bool
  | [] => false
  | p :: ps =>
    match fetchOutcome w p with
    | .error _ => false
    | .ok rd =>
      if pyTruthy rd then
        if w.storeFail p.name then writesName w n ps
        else (p.name == n) || writesName w n ps
      else writesName w n ps

/-! ### Store lemmas -/

theorem mkProfessorData_name (p : ProfessorLink) (v : PyVal) :
    (mkProfessorData p v).name = p.name := rfl

theorem countName_update (st : Store) (d : ProfessorData) (n : String) :
    countName (updateEqName st d.name d) n = countName st n := by
  unfold countName selectEqName updateEqName
  induction st with
  | nil => rfl
  | cons r rs ih =>
    simp only [List.map_cons, List.filter_cons]
    have hcond : ((if (r.name == d.name) = true then d else r).name == n) = (r.name == n) := by
      by_cases h : (r.name == d.name) = true
      · simp only [h, if_true]
        rw [beq_iff_eq.mp h]
      · simp [h]
    rw [hcond]
    by_cases h2 : (r.name == n) = true
    · rw [if_pos h2, if_pos h2]
      simp only [List.length_cons]
      rw [ih]
    · rw [if_neg h2, if_neg h2]
      exact ih

theorem countName_append_one (st : Store) (d : ProfessorData) (n : String) :
    countName (st ++ [d]) n = countName st n + (if d.name = n then 1 else 0) := by
  simp only [countName, selectEqName, List.filter_append, List.length_append]
  by_cases h : d.name = n <;> simp [h, List.filter_cons]

theorem selectEqName_empty_iff (st : Store) (n : String) :
    (selectEqName st n).isEmpty = true ↔ countName st n = 0 := by
  simp [countName, List.isEmpty_iff, List.length_eq_zero]

theorem upsert_count (st : Store) (d : ProfessorData) (n : String) :
    countName (upsert st d).1 n =
      if d.name = n ∧ countName st d.name = 0 then countName st n + 1
      else countName st n := by
  unfold upsert
  by_cases he : (selectEqName st d.name).isEmpty
  · have hc : countName st d.name = 0 := (selectEqName_empty_iff st d.name).mp he
    simp only [he, if_true, countName_append_one]
    by_cases h : d.name = n
    · have hc2 : countName st n = 0 := h ▸ hc
      simp [h, hc, hc2]
    · simp [h, hc]
  · have hc : countName st d.name ≠ 0 := fun h =>
      he ((selectEqName_empty_iff st d.name).mpr h)
    simp only [he, Bool.false_eq_true, if_false, countName_update]
    simp [hc]

theorem upsert_establishes (st : Store) (d : ProfessorData) :
    (∀ r ∈ (upsert st d).1, r.name = d.name → r = d) ∧
    ∃ r ∈ (upsert st d).1, r.name = d.name := by
  unfold upsert
  by_cases he : (selectEqName st d.name).isEmpty
  · simp only [he, if_true]
    have hnone : ∀ r ∈ st, ¬(r.name == d.name) = true := by
      rw [List.isEmpty_iff] at he
      exact List.filter_eq_nil_iff.mp he
    constructor
    · intro r hr hname
      rcases List.mem_append.mp hr with h | h
      · exact absurd (beq_iff_eq.mpr hname) (hnone r h)
      · simpa using h
    · exact ⟨d, List.mem_append_right st (by simp), rfl⟩
  · simp only [he, Bool.false_eq_true, if_false]
    constructor
    · intro r hr hname
      rcases List.mem_map.mp hr with ⟨r0, _, hr0⟩
      by_cases h : r0.name = d.name
      · simpa [h] using hr0.symm
      · rw [← hr0]
        simp only [beq_eq_false_iff_ne.mpr h, Bool.false_eq_true, if_false]
        rw [← hr0] at hname
        simp only [beq_eq_false_iff_ne.mpr h, Bool.false_eq_true, if_false] at hname
        exact absurd hname h
    · have : selectEqName st d.name ≠ [] := by
        intro h
        exact he (by simp [h])
      rcases List.exists_mem_of_ne_nil _ this with ⟨r0, hr0⟩
      have hr0b := List.mem_filter.mp hr0
      refine ⟨d, ?_, rfl⟩
      refine List.mem_map.mpr ⟨r0, hr0b.1, ?_⟩
      simp [hr0b.2]

theorem upsert_preserves (st : Store) (d : ProfessorData) (n : String) (q : ProfessorData)
    (hne : d.name ≠ n) (h : ∀ r ∈ st, r.name = n → r = q) :
    ∀ r ∈ (upsert st d).1, r.name = n → r = q := by
  unfold upsert
  by_cases he : (selectEqName st d.name).isEmpty
  · simp only [he, if_true]
    intro r hr hname
    rcases List.mem_append.mp hr with hm | hm
    · exact h r hm hname
    · have : r = d := by simpa using hm
      exact absurd (this ▸ hname) hne
  · simp only [he, Bool.false_eq_true, if_false]
    intro r hr hname
    rcases List.mem_map.mp hr with ⟨r0, hr0m, hr0⟩
    by_cases hb : r0.name = d.name
    · have : r = d := by simpa [hb] using hr0.symm
      exact absurd (this ▸ hname) hne
    · have : r = r0 := by simpa [beq_eq_false_iff_ne.mpr hb] using hr0.symm
      exact this ▸ h r0 hr0m (this ▸ hname)

theorem upsert_mem (st : Store) (d : ProfessorData) (n : String)
    (h : ∃ r ∈ st, r.name = n) : ∃ r ∈ (upsert st d).1, r.name = n := by
  rcases h with ⟨r0, hr0m, hr0n⟩
  unfold upsert
  by_cases he : (selectEqName st d.name).isEmpty
  · exact ⟨r0, by simp [he, List.mem_append_left _ hr0m], hr0n⟩
  · simp only [he, Bool.false_eq_true, if_false]
    by_cases hb : r0.name = d.name
    · refine ⟨d, List.mem_map.mpr ⟨r0, hr0m, by simp [hb]⟩, ?_⟩
      rw [← hb, hr0n]
    · exact ⟨r0, List.mem_map.mpr ⟨r0, hr0m, by simp [beq_eq_false_iff_ne.mpr hb]⟩, hr0n⟩

theorem upsert_events_of_pos (st : Store) (d : ProfessorData)
    (h : 1 ≤ countName st d.name) :
    (upsert st d).2 = [Event.storeSelect d.name, Event.storeUpdate d.name] := by
  unfold upsert
  have : ¬(selectEqName st d.name).isEmpty = true := by
    intro he
    rw [selectEqName_empty_iff] at he
    omega
  simp [this]

theorem upsert_events_mem (st : Store) (d : ProfessorData) (e : Event)
    (he : e ∈ (upsert st d).2) :
    e = Event.storeSelect d.name ∨ e = Event.storeInsert d.name ∨
    e = Event.storeUpdate d.name := by
  unfold upsert at he
  by_cases h : (selectEqName st d.name).isEmpty <;> simp [h] at he <;> tauto

/-! ### Loop lemmas -/

theorem profStep_crashed (w : World) (st : Store) (p : ProfessorLink) :
    (profStep w st p).crashed = !exOk (fetchOutcome w p) := by
  unfold profStep
  cases hf : fetchOutcome w p with
  | error e => rfl
  | ok rd =>
    by_cases ht : pyTruthy rd = true
    · by_cases hsf : w.storeFail p.name = true
      · simp [ht, hsf, exOk]
      · cases rd <;> simp [ht, hsf, exOk]
    · simp [ht, exOk]

theorem profStep_httpGet (w : World) (st : Store) (p : ProfessorLink) :
    Event.httpGet p.rmp_link ∈ (profStep w st p).events := by
  unfold profStep
  cases hf : fetchOutcome w p with
  | error e => simp
  | ok rd =>
    by_cases ht : pyTruthy rd = true
    · by_cases hsf : w.storeFail p.name = true
      · simp [ht, hsf]
      · cases rd <;> simp [ht, hsf]
    · simp [ht]

theorem profStep_event_shape (w : World) (st : Store) (p : ProfessorLink) (e : Event)
    (he : e ∈ (profStep w st p).events) :
    e = Event.httpGet p.rmp_link ∨ e = Event.storeSelect p.name ∨
    e = Event.storeUpdate p.name ∨ e = Event.storeInsert p.name := by
  unfold profStep at he
  cases hf : fetchOutcome w p with
  | error er => rw [hf] at he; simp at he; tauto
  | ok rd =>
    rw [hf] at he
    by_cases ht : pyTruthy rd = true
    · by_cases hsf : w.storeFail p.name = true
      · simp [ht, hsf] at he; tauto
      · cases rd with
        | none => simp [ht, hsf] at he; tauto
        | some v =>
          simp only [ht, hsf, if_true, Bool.false_eq_true, if_false, List.mem_cons] at he
          rcases he with h | h
          · tauto
          · rcases upsert_events_mem st (mkProfessorData p v) e h with h2 | h2 | h2 <;>
              rw [mkProfessorData_name] at h2 <;> tauto
    · simp [ht] at he; tauto

theorem profStep_store_cases (w : World) (st : Store) (p : ProfessorLink) :
    (profStep w st p).store = st ∨
    ∃ v, (profStep w st p).store = (upsert st (mkProfessorData p v)).1 := by
  unfold profStep
  cases hf : fetchOutcome w p with
  | error e => left; rfl
  | ok rd =>
    by_cases ht : pyTruthy rd = true
    · by_cases hsf : w.storeFail p.name = true
      · simp [ht, hsf]
      · cases rd with
        | none => simp [ht, hsf]
        | some v => right; exact ⟨v, by simp [ht, hsf]⟩
    · simp [ht]

theorem profStep_count_mono (w : World) (st : Store) (p : ProfessorLink) (n : String)
    (h : 1 ≤ countName st n) : 1 ≤ countName (profStep w st p).store n := by
  rcases profStep_store_cases w st p with hc | ⟨v, hc⟩
  · rw [hc]; exact h
  · rw [hc, upsert_count]
    split <;> omega

theorem profStep_no_insert (w : World) (st : Store) (p : ProfessorLink) (n : String)
    (h : 1 ≤ countName st n) :
    Event.storeInsert n ∉ (profStep w st p).events := by
  intro he
  by_cases hpn : p.name = n
  · unfold profStep at he
    cases hf : fetchOutcome w p with
    | error e => rw [hf] at he; simp at he
    | ok rd =>
      rw [hf] at he
      by_cases ht : pyTruthy rd = true
      · by_cases hsf : w.storeFail p.name = true
        · simp [ht, hsf] at he
        · cases rd with
          | none => simp [ht, hsf] at he
          | some v =>
            simp only [ht, hsf, if_true, Bool.false_eq_true, if_false,
              List.mem_cons] at he
            rcases he with h2 | h2
            · exact absurd h2 (by simp)
            · rw [upsert_events_of_pos st (mkProfessorData p v)
                (by rw [mkProfessorData_name, hpn]; exact h)] at h2
              rw [mkProfessorData_name] at h2
              simp at h2
      · simp [ht] at he
  · rcases profStep_event_shape w st p _ he with h2 | h2 | h2 | h2
    · exact absurd h2 (by simp)
    · exact absurd h2 (by simp)
    · exact absurd h2 (by simp)
    · simp only [Event.storeInsert.injEq] at h2
      exact hpn h2.symm

theorem profStep_pres (w : World) (st : Store) (p : ProfessorLink) (n : String)
    (q : ProfessorData) (hne : p.name ≠ n)
    (h1 : ∀ r ∈ st, r.name = n → r = q) (h2 : ∃ r ∈ st, r.name = n) :
    (∀ r ∈ (profStep w st p).store, r.name = n → r = q) ∧
    ∃ r ∈ (profStep w st p).store, r.name = n := by
  rcases profStep_store_cases w st p with hc | ⟨v, hc⟩
  · rw [hc]; exact ⟨h1, h2⟩
  · rw [hc]
    refine ⟨upsert_preserves st _ n q ?_ h1, upsert_mem st _ n h2⟩
    rw [mkProfessorData_name]
    exact hne

theorem profStep_error (w : World) (st : Store) (p : ProfessorLink) (e : String)
    (hf : fetchOutcome w p = .error e) :
    profStep w st p = ⟨st, [Event.httpGet p.rmp_link], true⟩ := by
  unfold profStep; rw [hf]

theorem profStep_skip (w : World) (st : Store) (p : ProfessorLink) (rd : Option PyVal)
    (hf : fetchOutcome w p = .ok rd) (ht : pyTruthy rd = false) :
    profStep w st p = ⟨st, [Event.httpGet p.rmp_link], false⟩ := by
  unfold profStep; rw [hf]; simp [ht]

theorem profStep_sfail (w : World) (st : Store) (p : ProfessorLink) (rd : Option PyVal)
    (hf : fetchOutcome w p = .ok rd) (ht : pyTruthy rd = true)
    (hsf : w.storeFail p.name = true) :
    profStep w st p = ⟨st, [Event.httpGet p.rmp_link, Event.storeSelect p.name], false⟩ := by
  unfold profStep; rw [hf]; simp [ht, hsf]

theorem profStep_write (w : World) (st : Store) (p : ProfessorLink) (v : PyVal)
    (hf : fetchOutcome w p = .ok (some v)) (ht : pyTruthyVal v = true)
    (hsf : w.storeFail p.name = false) :
    profStep w st p = ⟨(upsert st (mkProfessorData p v)).1,
      Event.httpGet p.rmp_link :: (upsert st (mkProfessorData p v)).2, false⟩ := by
  unfold profStep; rw [hf]
  simp [pyTruthy, ht, hsf]

theorem runProfs_cons_error (w : World) (p : ProfessorLink) (ps : List ProfessorLink)
    (st : Store) (e : String) (hf : fetchOutcome w p = .error e) :
    runProfs w st (p :: ps) = ⟨st, [Event.httpGet p.rmp_link], true⟩ := by
  simp only [runProfs]
  rw [profStep_error w st p e hf]
  rfl

theorem runProfs_cons_skip (w : World) (p : ProfessorLink) (ps : List ProfessorLink)
    (st : Store) (rd : Option PyVal)
    (hf : fetchOutcome w p = .ok rd) (ht : pyTruthy rd = false) :
    runProfs w st (p :: ps) = ⟨(runProfs w st ps).store,
      Event.httpGet p.rmp_link :: (runProfs w st ps).events,
      (runProfs w st ps).crashed⟩ := by
  simp only [runProfs]
  rw [profStep_skip w st p rd hf ht]
  rfl

theorem runProfs_cons_sfail (w : World) (p : ProfessorLink) (ps : List ProfessorLink)
    (st : Store) (rd : Option PyVal)
    (hf : fetchOutcome w p = .ok rd) (ht : pyTruthy rd = true)
    (hsf : w.storeFail p.name = true) :
    runProfs w st (p :: ps) = ⟨(runProfs w st ps).store,
      Event.httpGet p.rmp_link :: Event.storeSelect p.name :: (runProfs w st ps).events,
      (runProfs w st ps).crashed⟩ := by
  simp only [runProfs]
  rw [profStep_sfail w st p rd hf ht hsf]
  rfl

theorem runProfs_cons_write (w : World) (p : ProfessorLink) (ps : List ProfessorLink)
    (st : Store) (v : PyVal)
    (hf : fetchOutcome w p = .ok (some v)) (ht : pyTruthyVal v = true)
    (hsf : w.storeFail p.name = false) :
    runProfs w st (p :: ps) =
      ⟨(runProfs w (upsert st (mkProfessorData p v)).1 ps).store,
        (Event.httpGet p.rmp_link :: (upsert st (mkProfessorData p v)).2) ++
          (runProfs w (upsert st (mkProfessorData p v)).1 ps).events,
        (runProfs w (upsert st (mkProfessorData p v)).1 ps).crashed⟩ := by
  simp only [runProfs]
  rw [profStep_write w st p v hf ht hsf]
  rfl

theorem writesName_cons_error (w : World) (n : String) (p : ProfessorLink)
    (ps : List ProfessorLink) (e : String) (hf : fetchOutcome w p = .error e) :
    writesName w n (p :: ps) = false := by
  simp only [writesName]
  rw [hf]

theorem writesName_cons_skip (w : World) (n : String) (p : ProfessorLink)
    (ps : List ProfessorLink) (rd : Option PyVal)
    (hf : fetchOutcome w p = .ok rd) (ht : pyTruthy rd = false) :
    writesName w n (p :: ps) = writesName w n ps := by
  simp only [writesName]
  rw [hf]
  simp [ht]

theorem writesName_cons_sfail (w : World) (n : String) (p : ProfessorLink)
    (ps : List ProfessorLink) (rd : Option PyVal)
    (hf : fetchOutcome w p = .ok rd) (ht : pyTruthy rd = true)
    (hsf : w.storeFail p.name = true) :
    writesName w n (p :: ps) = writesName w n ps := by
  simp only [writesName]
  rw [hf]
  simp [ht, hsf]

theorem writesName_cons_write (w : World) (n : String) (p : ProfessorLink)
    (ps : List ProfessorLink) (v : PyVal)
    (hf : fetchOutcome w p = .ok (some v)) (ht : pyTruthyVal v = true)
    (hsf : w.storeFail p.name = false) :
    writesName w n (p :: ps) = ((p.name == n) || writesName w n ps) := by
  simp only [writesName]
  rw [hf]
  simp [pyTruthy, ht, hsf]

theorem runProfs_no_quit (w : World) :
    ∀ (ps : List ProfessorLink) (st : Store),
      Event.driverQuit ∉ (runProfs w st ps).events := by
  intro ps
  induction ps with
  | nil => intro st h; simp [runProfs] at h
  | cons p ps ih =>
    intro st h
    simp only [runProfs] at h
    by_cases hcr : (profStep w st p).crashed
    · rw [if_pos hcr] at h
      rcases profStep_event_shape w st p _ h with h2 | h2 | h2 | h2 <;> simp at h2
    · rw [if_neg hcr] at h
      simp only [List.mem_append] at h
      rcases h with h | h
      · rcases profStep_event_shape w st p _ h with h2 | h2 | h2 | h2 <;> simp at h2
      · exact ih _ h

theorem runProfs_attempted (w : World) :
    ∀ (ps : List ProfessorLink) (st : Store),
      (∀ p ∈ ps, exOk (fetchOutcome w p) = true) →
      (runProfs w st ps).crashed = false ∧
      ∀ p ∈ ps, Event.httpGet p.rmp_link ∈ (runProfs w st ps).events := by
  intro ps
  induction ps with
  | nil => intro st _; exact ⟨rfl, by simp⟩
  | cons p ps ih =>
    intro st hall
    have hcr : (profStep w st p).crashed = false := by
      rw [profStep_crashed, hall p (by simp)]
      rfl
    simp only [runProfs, hcr, Bool.false_eq_true, if_false]
    have hih := ih (profStep w st p).store (fun q hq => hall q (List.mem_cons_of_mem p hq))
    refine ⟨hih.1, ?_⟩
    intro q hq
    rcases List.mem_cons.mp hq with rfl | hq2
    · exact List.mem_append_left _ (profStep_httpGet w st q)
    · exact List.mem_append_right _ (hih.2 q hq2)

theorem runProfs_pres (w : World) (n : String) (q : ProfessorData) :
    ∀ (ps : List ProfessorLink) (st : Store),
      (∀ x ∈ ps, x.name ≠ n) →
      (∀ r ∈ st, r.name = n → r = q) → (∃ r ∈ st, r.name = n) →
      (∀ r ∈ (runProfs w st ps).store, r.name = n → r = q) ∧
      ∃ r ∈ (runProfs w st ps).store, r.name = n := by
  intro ps
  induction ps with
  | nil => intro st _ h1 h2; exact ⟨h1, h2⟩
  | cons p ps ih =>
    intro st hnames h1 h2
    have hstep := profStep_pres w st p n q (hnames p (by simp)) h1 h2
    simp only [runProfs]
    by_cases hcr : (profStep w st p).crashed
    · rw [if_pos hcr]; exact hstep
    · rw [if_neg hcr]
      exact ih (profStep w st p).store
        (fun x hx => hnames x (List.mem_cons_of_mem p hx)) hstep.1 hstep.2

theorem runProfs_count (w : World) (n : String) :
    ∀ (ps : List ProfessorLink) (st : Store),
      countName (runProfs w st ps).store n =
        if countName st n = 0 then (if writesName w n ps then 1 else 0)
        else countName st n := by
  intro ps
  induction ps with
  | nil =>
    intro st
    simp only [runProfs, writesName, if_false, Bool.false_eq_true]
    by_cases hc : countName st n = 0 <;> simp [hc]
  | cons p ps ih =>
    intro st
    cases hf : fetchOutcome w p with
    | error e =>
      rw [runProfs_cons_error w p ps st e hf, writesName_cons_error w n p ps e hf]
      by_cases hc : countName st n = 0 <;> simp [hc]
    | ok rd =>
      by_cases ht : pyTruthy rd = true
      · by_cases hsf : w.storeFail p.name = true
        · rw [runProfs_cons_sfail w p ps st rd hf ht hsf,
            writesName_cons_sfail w n p ps rd hf ht hsf]
          exact ih st
        · have hsf2 : w.storeFail p.name = false := by
            revert hsf; cases w.storeFail p.name <;> simp
          cases rd with
          | none => rw [pyTruthy] at ht; exact absurd ht (by simp)
          | some v =>
            have htv : pyTruthyVal v = true := ht
            rw [runProfs_cons_write w p ps st v hf htv hsf2,
              writesName_cons_write w n p ps v hf htv hsf2]
            dsimp only
            rw [ih, upsert_count, mkProfessorData_name]
            by_cases hpn : p.name = n
            · subst hpn
              by_cases hc : countName st p.name = 0
              · simp [hc]
              · simp [hc]
            · have hbeq : (p.name == n) = false := beq_eq_false_iff_ne.mpr hpn
              have hcond : ¬(p.name = n ∧ countName st p.name = 0) := fun h => hpn h.1
              rw [if_neg hcond, hbeq]
              simp only [Bool.false_or]
      · have ht2 : pyTruthy rd = false := by
          revert ht; cases pyTruthy rd <;> simp
        rw [runProfs_cons_skip w p ps st rd hf ht2,
          writesName_cons_skip w n p ps rd hf ht2]
        dsimp only
        exact ih st

theorem runProfs_no_insert (w : World) (n : String) :
    ∀ (ps : List ProfessorLink) (st : Store), 1 ≤ countName st n →
      Event.storeInsert n ∉ (runProfs w st ps).events := by
  intro ps
  induction ps with
  | nil => intro st _ h; simp [runProfs] at h
  | cons p ps ih =>
    intro st hc h
    simp only [runProfs] at h
    by_cases hcr : (profStep w st p).crashed
    · rw [if_pos hcr] at h
      exact profStep_no_insert w st p n hc h
    · rw [if_neg hcr] at h
      rcases List.mem_append.mp h with h2 | h2
      · exact profStep_no_insert w st p n hc h2
      · exact ih _ (profStep_count_mono w st p n hc) h2

theorem runProfs_reach (w : World) (p : ProfessorLink) (v : PyVal)
    (post : List ProfessorLink)
    (hf : fetchOutcome w p = .ok (some v)) (ht : pyTruthyVal v = true)
    (hsf : w.storeFail p.name = false)
    (hpost : ∀ x ∈ post, x.name ≠ p.name) :
    ∀ (pre : List ProfessorLink) (st : Store),
      (∀ x ∈ pre, exOk (fetchOutcome w x) = true) →
      (∀ r ∈ (runProfs w st (pre ++ p :: post)).store,
        r.name = p.name → r = mkProfessorData p v) ∧
      ∃ r ∈ (runProfs w st (pre ++ p :: post)).store, r.name = p.name := by
  intro pre
  induction pre with
  | nil =>
    intro st _
    rw [List.nil_append, runProfs_cons_write w p post st v hf ht hsf]
    dsimp only
    have hest := upsert_establishes st (mkProfessorData p v)
    rw [mkProfessorData_name] at hest
    exact runProfs_pres w p.name (mkProfessorData p v) post _ hpost hest.1 hest.2
  | cons q pre ih =>
    intro st hall
    have hq := hall q (by simp)
    cases hfq : fetchOutcome w q with
    | error e => rw [hfq] at hq; simp [exOk] at hq
    | ok rd =>
      by_cases htq : pyTruthy rd = true
      · by_cases hsfq : w.storeFail q.name = true
        · rw [List.cons_append, runProfs_cons_sfail w q _ st rd hfq htq hsfq]
          dsimp only
          exact ih st (fun x hx => hall x (by simp [hx]))
        · have hsfq2 : w.storeFail q.name = false := by
            revert hsfq; cases w.storeFail q.name <;> simp
          cases rd with
          | none => rw [pyTruthy] at htq; exact absurd htq (by simp)
          | some vq =>
            rw [List.cons_append, runProfs_cons_write w q _ st vq hfq htq hsfq2]
            dsimp only
            exact ih _ (fun x hx => hall x (by simp [hx]))
      · have htq2 : pyTruthy rd = false := by
          revert htq; cases pyTruthy rd <;> simp
        rw [List.cons_append, runProfs_cons_skip w q _ st rd hfq htq2]
        dsimp only
        exact ih st (fun x hx => hall x (by simp [hx]))

theorem mainRun_probeOk (w : World) (st : Store) (h : w.probeOk = true) :
    mainRun w st = ⟨(runProfs w st (scrape_professor_links w)).store,
      Event.probe :: Event.navigate BASE_URL ::
        (runProfs w st (scrape_professor_links w)).events,
      (runProfs w st (scrape_professor_links w)).crashed⟩ := by
  unfold mainRun
  rw [h]
  rfl

theorem mainRun_probeFail (w : World) (st : Store) (h : w.probeOk = false) :
    mainRun w st = ⟨st, [Event.probe], false⟩ := by
  unfold mainRun
  rw [h]
  rfl

theorem mainRun_no_quit (w : World) (st : Store) :
    Event.driverQuit ∉ (mainRun w st).events := by
  by_cases hp : w.probeOk = true
  · rw [mainRun_probeOk w st hp]
    dsimp only
    intro h
    rcases List.mem_cons.mp h with h2 | h2
    · simp at h2
    rcases List.mem_cons.mp h2 with h3 | h3
    · simp at h3
    · exact runProfs_no_quit w _ _ h3
  · have hp2 : w.probeOk = false := by revert hp; cases w.probeOk <;> simp
    rw [mainRun_probeFail w st hp2]
    simp

theorem findRatingsDist_unique (entries : List (String × PyVal))
    (v : List (String × PyVal)) (k : String)
    (hmem : (k, PyVal.dict v) ∈ entries) (hrd : isRatingsDist (.dict v) = true)
    (huniq : ∀ k2 v2, (k2, v2) ∈ entries → isRatingsDist v2 = true → v2 = PyVal.dict v) :
    findRatingsDist entries = some (.dict v) := by
  induction entries with
  | nil => cases hmem
  | cons e rest ih =>
    rcases e with ⟨k1, v1⟩
    simp only [findRatingsDist]
    by_cases h : isRatingsDist v1 = true
    · rw [if_pos h, huniq k1 v1 (by simp) h]
    · rw [if_neg h]
      rcases List.mem_cons.mp hmem with heq | hmem2
      · cases heq
        exact absurd hrd h
      · exact ih hmem2 (fun k2 v2 hm h2 => huniq k2 v2 (List.mem_cons_of_mem _ hm) h2)

/-! ### The claims -/

/-- C1 (amended): in `main`, only the store read/write round-trips for a
professor sit inside the `try` block, so only their failures are caught
and logged; when every profile fetch/extraction returns normally the run
never crashes and every scraped professor is attempted (its profile HTTP
GET is issued), regardless of whose store operations fail.  A
failure raised while fetching the profile or extracting its ratings is
not caught (see the counterexample theorem). -/
theorem claim1_only_store_failures_caught (w : World) (st : Store)
    (hprobe : w.probeOk = true)
    (hfetch : ∀ p ∈ scrape_professor_links w, exOk (fetchOutcome w p) = true) :
    (mainRun w st).crashed = false ∧
    ∀ p ∈ scrape_professor_links w,
      Event.httpGet p.rmp_link ∈ (mainRun w st).events := by
  rw [mainRun_probeOk w st hprobe]
  dsimp only
  have h := runProfs_attempted w (scrape_professor_links w) st hfetch
  exact ⟨h.1, fun p hp =>
    List.mem_cons_of_mem _ (List.mem_cons_of_mem _ (h.2 p hp))⟩

/-- C2 (amended): when the embedded-state marker is absent from every
script of the page, `fetch_rating_distributions` returns the "no data"
result; but when the marker is present and the JSON text between the
marker and the terminating statement fails to parse, a `JSONDecodeError`
escapes instead of a "no data" result. -/
theorem claim2_marker_absent_vs_parse_error (page : Page) :
    (findRelayScript page = none → fetch_rating_distributions page = .ok none) ∧
    (∀ s js, findRelayScript page = some s → extractJsonStr s = some js →
      jsonParse js = none →
      fetch_rating_distributions page = .error "JSONDecodeError") := by
  constructor
  · intro h
    unfold fetch_rating_distributions
    rw [h]
  · intro s js h1 h2 h3
    unfold fetch_rating_distributions
    rw [h1]
    dsimp only
    rw [h2]
    dsimp only
    rw [h3]

/-- C3: for a profile page whose embedded JSON blob parses to an object
holding exactly one value tagged `ratingsDistribution`, the extractor
returns exactly that value, and the record `main` builds from it maps
star `i` to key `ri` of that value, substituting `0` for a missing key. -/
theorem claim3_extraction_maps_stars (page : Page) (s js : String)
    (entries v : List (String × PyVal)) (k : String) (p : ProfessorLink)
    (hs : findRelayScript page = some s)
    (hx : extractJsonStr s = some js)
    (hj : jsonParse js = some (.dict entries))
    (hmem : (k, PyVal.dict v) ∈ entries)
    (hrd : isRatingsDist (.dict v) = true)
    (huniq : ∀ k2 v2, (k2, v2) ∈ entries → isRatingsDist v2 = true →
      v2 = PyVal.dict v) :
    fetch_rating_distributions page = .ok (some (.dict v)) ∧
    (mkProfessorData p (.dict v)).name = p.name ∧
    (mkProfessorData p (.dict v)).rmp_link = p.rmp_link ∧
    (∀ x, dictGet v "r1" = some x → (mkProfessorData p (.dict v)).rating_1_count = x) ∧
    (dictGet v "r1" = none → (mkProfessorData p (.dict v)).rating_1_count = PyVal.int 0) ∧
    (∀ x, dictGet v "r2" = some x → (mkProfessorData p (.dict v)).rating_2_count = x) ∧
    (dictGet v "r2" = none → (mkProfessorData p (.dict v)).rating_2_count = PyVal.int 0) ∧
    (∀ x, dictGet v "r3" = some x → (mkProfessorData p (.dict v)).rating_3_count = x) ∧
    (dictGet v "r3" = none → (mkProfessorData p (.dict v)).rating_3_count = PyVal.int 0) ∧
    (∀ x, dictGet v "r4" = some x → (mkProfessorData p (.dict v)).rating_4_count = x) ∧
    (dictGet v "r4" = none → (mkProfessorData p (.dict v)).rating_4_count = PyVal.int 0) ∧
    (∀ x, dictGet v "r5" = some x → (mkProfessorData p (.dict v)).rating_5_count = x) ∧
    (dictGet v "r5" = none → (mkProfessorData p (.dict v)).rating_5_count = PyVal.int 0) := by
  refine ⟨?_, rfl, rfl,
    fun x hx2 => by simp [mkProfessorData, pyGetD, hx2],
    fun h => by simp [mkProfessorData, pyGetD, h],
    fun x hx2 => by simp [mkProfessorData, pyGetD, hx2],
    fun h => by simp [mkProfessorData, pyGetD, h],
    fun x hx2 => by simp [mkProfessorData, pyGetD, hx2],
    fun h => by simp [mkProfessorData, pyGetD, h],
    fun x hx2 => by simp [mkProfessorData, pyGetD, hx2],
    fun h => by simp [mkProfessorData, pyGetD, h],
    fun x hx2 => by simp [mkProfessorData, pyGetD, hx2],
    fun h => by simp [mkProfessorData, pyGetD, h]⟩
  unfold fetch_rating_distributions
  rw [hs]
  dsimp only
  rw [hx]
  dsimp only
  rw [hj]
  dsimp only
  rw [findRatingsDist_unique entries v k hmem hrd huniq]

/-- C4: when the last scraped occurrence `p` of a professor name is reached
(no fetch failure before it), has rating data, and its store write
succeeds, then — whatever happens afterwards — every row of the final
store bearing that name equals the record built from `p`, and at least
one such row exists: last write wins, wholesale. -/
theorem claim4_last_write_wins (w : World) (st : Store)
    (pre post : List ProfessorLink) (p : ProfessorLink) (v : PyVal)
    (hprobe : w.probeOk = true)
    (hsplit : scrape_professor_links w = pre ++ p :: post)
    (hpre : ∀ x ∈ pre, exOk (fetchOutcome w x) = true)
    (hpost : ∀ x ∈ post, x.name ≠ p.name)
    (hf : fetchOutcome w p = .ok (some v))
    (ht : pyTruthyVal v = true)
    (hsf : w.storeFail p.name = false) :
    (∀ r ∈ (mainRun w st).store, r.name = p.name → r = mkProfessorData p v) ∧
    ∃ r ∈ (mainRun w st).store, r.name = p.name := by
  rw [mainRun_probeOk w st hprobe]
  dsimp only
  rw [hsplit]
  exact runProfs_reach w p v post hf ht hsf hpost pre st hpre

/-- C5: running the pipeline a second time over the same world is
idempotent on row counts — for every name, the count after the second
run equals the count after the first — and for a name already present
after the first run the second run never issues an insert for it. -/
theorem claim5_rerun_idempotent (w : World) (st : Store) (n : String) :
    countName (mainRun w (mainRun w st).store).store n =
      countName (mainRun w st).store n ∧
    (1 ≤ countName (mainRun w st).store n →
      Event.storeInsert n ∉ (mainRun w (mainRun w st).store).events) := by
  by_cases hp : w.probeOk = true
  · constructor
    · rw [mainRun_probeOk w st hp]
      rw [mainRun_probeOk w _ hp]
      dsimp only
      rw [runProfs_count, runProfs_count]
      by_cases hc : countName st n = 0
      · by_cases hw : writesName w n (scrape_professor_links w) = true
        · simp [hc, hw]
        · simp [hc, hw]
      · simp [hc]
    · intro hcount
      rw [mainRun_probeOk w _ hp]
      dsimp only
      intro h
      rcases List.mem_cons.mp h with h2 | h2
      · simp at h2
      rcases List.mem_cons.mp h2 with h3 | h3
      · simp at h3
      · exact runProfs_no_insert w n _ _ hcount h3
  · have hp2 : w.probeOk = false := by revert hp; cases w.probeOk <;> simp
    rw [mainRun_probeFail w st hp2]
    dsimp only
    rw [mainRun_probeFail w st hp2]
    exact ⟨rfl, fun _ h => by simp at h⟩

/-- C6: when the profile page fetched for a professor contains no script
matching the embedded-state marker, the extractor returns "no data" and
the loop iteration for that professor issues only the HTTP GET — no
store select, update, or insert — and leaves the store unchanged. -/
theorem claim6_no_marker_no_store_calls (w : World) (st : Store)
    (p : ProfessorLink) (page : Page)
    (hp : w.pages p.rmp_link = some page)
    (hm : findRelayScript page = none) :
    fetch_rating_distributions page = .ok none ∧
    profStep w st p = ⟨st, [Event.httpGet p.rmp_link], false⟩ := by
  have hfd : fetch_rating_distributions page = .ok none := by
    unfold fetch_rating_distributions
    rw [hm]
  refine ⟨hfd, ?_⟩
  have hf : fetchOutcome w p = .ok none := by
    unfold fetchOutcome
    rw [hp]
    exact hfd
  exact profStep_skip w st p none hf rfl

/-- C7: when the startup connectivity probe fails, `main` returns
immediately: the only external call of the run is the probe itself —
no browser navigation, no profile fetch, no store write — the store is
untouched and no exception escapes. -/
theorem claim7_probe_failure_aborts (w : World) (st : Store)
    (h : w.probeOk = false) :
    (mainRun w st).events = [Event.probe] ∧ (mainRun w st).store = st ∧
    (mainRun w st).crashed = false := by
  rw [mainRun_probeFail w st h]
  exact ⟨rfl, rfl, rfl⟩

/-- C8 (amended): `driver.quit()` follows `main()` sequentially with no
`try/finally`, so the browser session is torn down exactly when `main`
returns without an unhandled exception; a crashing run skips teardown
(see the counterexample theorem). -/
theorem claim8_quit_iff_no_crash (w : World) (st : Store) :
    Event.driverQuit ∈ (programRun w st).events ↔
      (mainRun w st).crashed = false := by
  unfold programRun
  by_cases hc : (mainRun w st).crashed = true
  · rw [if_pos hc]
    constructor
    · intro h
      exact absurd h (mainRun_no_quit w st)
    · intro h
      rw [h] at hc
      exact absurd hc (by simp)
  · rw [if_neg hc]
    dsimp only
    constructor
    · intro _
      revert hc
      cases (mainRun w st).crashed <;> simp
    · intro _
      exact List.mem_append_right _ (by simp)

/-- C9: the Link Scraper builds every stored profile URL by bare string
concatenation of the fixed origin with the rendered href; a card with no
href attribute is not skipped — it yields an entry whose URL is the
malformed `https://www.ratemyprofessors.comNone`. -/
theorem claim9_missing_href_malformed_url (cs : List Card) (c : Card)
    (hc : c ∈ cs) (h : c.href = none) :
    (parseCards cs).length = cs.length ∧
    parseCard c ∈ parseCards cs ∧
    (parseCard c).rmp_link = "https://www.ratemyprofessors.comNone" := by
  refine ⟨by simp [parseCards], List.mem_map_of_mem _ hc, ?_⟩
  unfold parseCard pyStrOfOpt
  rw [h]
  rfl

/-- C10: the update path of the upsert filters by name equality only:
when at least two rows already carry the name of the record, the call issues
a select followed by an update (no insert), keeps the row count, and
overwrites every row bearing that name with the new record. -/
theorem claim10_update_overwrites_all_matching_rows (st : Store)
    (d : ProfessorData) (h : 2 ≤ countName st d.name) :
    (upsert st d).2 = [Event.storeSelect d.name, Event.storeUpdate d.name] ∧
    (upsert st d).1.length = st.length ∧
    countName (upsert st d).1 d.name = countName st d.name ∧
    ∀ r ∈ (upsert st d).1, r.name = d.name → r = d := by
  have h1 : 1 ≤ countName st d.name := le_trans (by norm_num) h
  refine ⟨upsert_events_of_pos st d h1, ?_, ?_, (upsert_establishes st d).1⟩
  · unfold upsert
    have hne : ¬(selectEqName st d.name).isEmpty = true := fun he => by
      rw [selectEqName_empty_iff] at he
      omega
    rw [if_neg hne]
    simp [updateEqName]
  · rw [upsert_count]
    have hcond : ¬(d.name = d.name ∧ countName st d.name = 0) := fun hh => by omega
    rw [if_neg hcond]

/-! ### Concrete runs: counterexamples and witnesses -/

/-- A script whose embedded JSON is not parseable. -/
def c1badScript : String := "window.__RELAY_STORE__ = \x7bnot json\x7d;"

/-- World for the C1 counterexample: the profile page of professor Alice
holds an unparsable blob, the page of Bob is healthy. -/
def c1cexw : World :=
  { probeOk := true
    cards := [⟨some "Alice", some "/a"⟩, ⟨some "Bob", some "/b"⟩]
    pages := fun u =>
      if u == "https://www.ratemyprofessors.com/a" then some ⟨[c1badScript]⟩
      else some ⟨["var x = 1;"]⟩
    storeFail := fun _ => false }

/-- C1 (counterexample): the claim says a failure while extracting the
ratings of a professor is caught and the next professor is still attempted.
Here the extraction for the first professor raises (`JSONDecodeError`
inside `fetch_rating_distributions`, which is outside the `try` block of
`main`), the run crashes, and the profile of the second professor is
never fetched. -/
theorem claim1_cex :
    (mainRun c1cexw []).crashed = true ∧
    Event.httpGet "https://www.ratemyprofessors.com/a" ∈ (mainRun c1cexw []).events ∧
    Event.httpGet "https://www.ratemyprofessors.com/b" ∉ (mainRun c1cexw []).events :=
  ⟨rfl, by decide, by decide⟩

/-- A healthy ratings script. -/
def c1goodScript : String :=
  "window.__RELAY_STORE__ = \x7b\"k\":\x7b\"__typename\":\"ratingsDistribution\",\"r1\":1,\"r2\":1,\"r3\":1,\"r4\":1,\"r5\":1\x7d\x7d;"

/-- World for the C1 witness: both fetches succeed; the store
round-trips of Alice raise (and are caught), those of Bob succeed. -/
def c1w : World :=
  { probeOk := true
    cards := [⟨some "Alice", some "/a"⟩, ⟨some "Bob", some "/b"⟩]
    pages := fun u =>
      if u == "https://www.ratemyprofessors.com/a" then some ⟨[c1goodScript]⟩
      else if u == "https://www.ratemyprofessors.com/b" then some ⟨["var x = 1;"]⟩
      else none
    storeFail := fun n => n == "Alice" }

/-- Witness for the amended C1: with all fetches healthy, a store failure
for Alice is caught and Bob is still attempted. -/
theorem claim1_witness :
    (mainRun c1w []).crashed = false ∧
    Event.httpGet "https://www.ratemyprofessors.com/a" ∈ (mainRun c1w []).events ∧
    Event.httpGet "https://www.ratemyprofessors.com/b" ∈ (mainRun c1w []).events := by
  have h := claim1_only_store_failures_caught c1w [] rfl (by decide)
  exact ⟨h.1,
    h.2 ⟨"Alice", "https://www.ratemyprofessors.com/a"⟩ (by decide),
    h.2 ⟨"Bob", "https://www.ratemyprofessors.com/b"⟩ (by decide)⟩

/-- Script with the marker but malformed JSON, for the C2 counterexample. -/
def c2badScript : String := "window.__RELAY_STORE__ = \x7bbad\x7d;"

/-- Page holding only that script. -/
def c2cexPage : Page := ⟨[c2badScript]⟩

/-- C2 (counterexample): the claim says a JSON-parse failure yields the
"no data" result rather than an error.  On this page the marker is
present, the assignment pattern matches, the captured text does not
parse, and `fetch_rating_distributions` raises instead of returning
"no data". -/
theorem claim2_cex :
    findRelayScript c2cexPage = some c2badScript ∧
    extractJsonStr c2badScript = some "\x7bbad\x7d" ∧
    jsonParse "\x7bbad\x7d" = none ∧
    fetch_rating_distributions c2cexPage = .error "JSONDecodeError" ∧
    exOk (fetch_rating_distributions c2cexPage) = false :=
  ⟨rfl, rfl, rfl, rfl, rfl⟩

/-- A marker-free page for the C2 witness. -/
def c2okPage : Page := ⟨["var nothing = 0;"]⟩

/-- Another malformed-blob script and page for the C2 witness. -/
def c2errScript : String := "window.__RELAY_STORE__ = \x7bnope\x7d;"

/-- Page holding only that script. -/
def c2errPage : Page := ⟨[c2errScript]⟩

/-- Witness for the amended C2 at concrete pages: marker absent gives
"no data"; malformed embedded JSON raises. -/
theorem claim2_witness :
    fetch_rating_distributions c2okPage = .ok none ∧
    fetch_rating_distributions c2errPage = .error "JSONDecodeError" :=
  ⟨(claim2_marker_absent_vs_parse_error c2okPage).1 rfl,
   (claim2_marker_absent_vs_parse_error c2errPage).2 c2errScript "\x7bnope\x7d" rfl rfl rfl⟩

/-- A ratings script with `r3` missing, for the C3 witness. -/
def c3script : String :=
  "window.__RELAY_STORE__ = \x7b\"client:root\":\x7b\"__typename\":\"ratingsDistribution\",\"r1\":3,\"r2\":0,\"r4\":7,\"r5\":2\x7d\x7d;"

/-- The captured JSON text of that script. -/
def c3js : String :=
  "\x7b\"client:root\":\x7b\"__typename\":\"ratingsDistribution\",\"r1\":3,\"r2\":0,\"r4\":7,\"r5\":2\x7d\x7d"

/-- Profile page for the C3 witness; an unmarked script comes first. -/
def c3page : Page := ⟨["var preamble = 1;", c3script]⟩

/-- The ratings-distribution object embedded in `c3script`. -/
def c3rv : List (String × PyVal) :=
  [("__typename", .str "ratingsDistribution"), ("r1", .int 3), ("r2", .int 0),
   ("r4", .int 7), ("r5", .int 2)]

/-- The parsed top level of `c3js`. -/
def c3entries : List (String × PyVal) := [("client:root", PyVal.dict c3rv)]

/-- A professor link for the C3 witness. -/
def c3prof : ProfessorLink := ⟨"Carol", "https://www.ratemyprofessors.com/c"⟩

/-- Witness for C3: the unique tagged object is extracted and mapped to
star counts, with the missing `r3` defaulting to `0`. -/
theorem claim3_witness :
    fetch_rating_distributions c3page = .ok (some (.dict c3rv)) ∧
    (mkProfessorData c3prof (.dict c3rv)).rating_1_count = PyVal.int 3 ∧
    (mkProfessorData c3prof (.dict c3rv)).rating_3_count = PyVal.int 0 ∧
    (mkProfessorData c3prof (.dict c3rv)).rating_5_count = PyVal.int 2 := by
  have h := claim3_extraction_maps_stars c3page c3script c3js c3entries c3rv
    "client:root" c3prof rfl rfl rfl (by simp [c3entries])
    rfl (by intro k2 v2 hm _; simp [c3entries] at hm; exact hm.2)
  obtain ⟨hA, _, _, hD1, _, _, _, _, hE3, _, _, hD5, _⟩ := h
  exact ⟨hA, hD1 (.int 3) rfl, hE3 rfl, hD5 (.int 2) rfl⟩

/-- First Smith page (counts 1,1,1,1,1) for the C4 witness. -/
def c4scriptA : String :=
  "window.__RELAY_STORE__ = \x7b\"k\":\x7b\"__typename\":\"ratingsDistribution\",\"r1\":1,\"r2\":1,\"r3\":1,\"r4\":1,\"r5\":1\x7d\x7d;"

/-- Second Smith page (counts 9,8,7,6,5) for the C4 witness. -/
def c4scriptB : String :=
  "window.__RELAY_STORE__ = \x7b\"k\":\x7b\"__typename\":\"ratingsDistribution\",\"r1\":9,\"r2\":8,\"r3\":7,\"r4\":6,\"r5\":5\x7d\x7d;"

/-- World for the C4 witness: the same display name scraped twice with
different profile pages. -/
def c4w : World :=
  { probeOk := true
    cards := [⟨some "Smith", some "/professor/1"⟩, ⟨some "Smith", some "/professor/2"⟩]
    pages := fun u =>
      if u == "https://www.ratemyprofessors.com/professor/1" then some ⟨[c4scriptA]⟩
      else if u == "https://www.ratemyprofessors.com/professor/2" then some ⟨[c4scriptB]⟩
      else none
    storeFail := fun _ => false }

/-- First scraped link of `c4w`. -/
def c4linkA : ProfessorLink := ⟨"Smith", "https://www.ratemyprofessors.com/professor/1"⟩

/-- Second scraped link of `c4w`. -/
def c4linkB : ProfessorLink := ⟨"Smith", "https://www.ratemyprofessors.com/professor/2"⟩

/-- The ratings object of the second Smith page. -/
def c4vB : PyVal :=
  .dict [("__typename", .str "ratingsDistribution"), ("r1", .int 9), ("r2", .int 8),
    ("r3", .int 7), ("r4", .int 6), ("r5", .int 5)]

/-- A default row used only as the `headD` fallback. -/
def c4dflt : ProfessorData := ⟨"", "", .int 0, .int 0, .int 0, .int 0, .int 0⟩

/-- Witness for C4: after the run, the stored Smith row is the record of
the second (last) occurrence. -/
theorem claim4_witness :
    ((mainRun c4w []).store.headD c4dflt).name = "Smith" ∧
    (mainRun c4w []).store.headD c4dflt = mkProfessorData c4linkB c4vB := by
  have h := claim4_last_write_wins c4w [] [c4linkA] [] c4linkB c4vB rfl rfl
    (by intro x hx; simp at hx; subst hx; rfl)
    (by intro x hx; simp at hx)
    rfl rfl rfl
  refine ⟨rfl, h.1 _ ?_ rfl⟩
  exact List.Mem.head _

/-- Ratings script for the C5 witness. -/
def c5script : String :=
  "window.__RELAY_STORE__ = \x7b\"k\":\x7b\"__typename\":\"ratingsDistribution\",\"r1\":1,\"r2\":2,\"r3\":3,\"r4\":4,\"r5\":5\x7d\x7d;"

/-- World for the C5 witness: one professor with rating data. -/
def c5w : World :=
  { probeOk := true
    cards := [⟨some "Ana", some "/p"⟩]
    pages := fun u =>
      if u == "https://www.ratemyprofessors.com/p" then some ⟨[c5script]⟩ else none
    storeFail := fun _ => false }

/-- Witness for C5: after the first run Ana has one row; the second run
keeps the count and issues no insert for her. -/
theorem claim5_witness :
    1 ≤ countName (mainRun c5w []).store "Ana" ∧
    countName (mainRun c5w (mainRun c5w []).store).store "Ana" =
      countName (mainRun c5w []).store "Ana" ∧
    Event.storeInsert "Ana" ∉ (mainRun c5w (mainRun c5w []).store).events :=
  ⟨by decide, (claim5_rerun_idempotent c5w [] "Ana").1,
   (claim5_rerun_idempotent c5w [] "Ana").2 (by decide)⟩

/-- A marker-free profile page for the C6 witness. -/
def c6page : Page := ⟨["var other = 2;"]⟩

/-- World for the C6 witness. -/
def c6w : World :=
  { probeOk := true
    cards := [⟨some "Dan", some "/d"⟩]
    pages := fun u =>
      if u == "https://www.ratemyprofessors.com/d" then some c6page else none
    storeFail := fun _ => false }

/-- The scraped link of `c6w`. -/
def c6link : ProfessorLink := ⟨"Dan", "https://www.ratemyprofessors.com/d"⟩

/-- Witness for C6: the extractor returns "no data" and the iteration
issues only the HTTP GET. -/
theorem claim6_witness :
    fetch_rating_distributions c6page = .ok none ∧
    profStep c6w [] c6link =
      ⟨[], [Event.httpGet "https://www.ratemyprofessors.com/d"], false⟩ := by
  have h := claim6_no_marker_no_store_calls c6w [] c6link c6page rfl rfl
  exact ⟨h.1, h.2⟩

/-- World for the C7 witness: the probe fails. -/
def c7w : World :=
  { probeOk := false
    cards := [⟨some "Gail", some "/g"⟩]
    pages := fun _ => none
    storeFail := fun _ => false }

/-- Witness for C7: a failed probe leaves the run with the probe as its
only external call. -/
theorem claim7_witness :
    (mainRun c7w []).events = [Event.probe] ∧ (mainRun c7w []).store = [] ∧
    (mainRun c7w []).crashed = false :=
  claim7_probe_failure_aborts c7w [] rfl

/-- Script with an unparsable blob for the C8 counterexample. -/
def c8badScript : String := "window.__RELAY_STORE__ = \x7bboom\x7d;"

/-- World for the C8 counterexample: the page of the only professor
blows up the extractor, so `main` raises. -/
def c8w : World :=
  { probeOk := true
    cards := [⟨some "Eve", some "/e"⟩]
    pages := fun u =>
      if u == "https://www.ratemyprofessors.com/e" then some ⟨[c8badScript]⟩ else none
    storeFail := fun _ => false }

/-- C8 (counterexample): the claim says the browser session is released
at the end of the run regardless of outcome.  Here `main` terminates
with a failure and `driver.quit()` is never reached. -/
theorem claim8_cex :
    (mainRun c8w []).crashed = true ∧
    Event.driverQuit ∉ (programRun c8w []).events :=
  ⟨rfl, by decide⟩

/-- World for the C8 witness (a run that returns normally). -/
def c8okw : World :=
  { probeOk := false
    cards := []
    pages := fun _ => none
    storeFail := fun _ => false }

/-- Witness for the amended C8 at a concrete world. -/
theorem claim8_witness :
    Event.driverQuit ∈ (programRun c8okw []).events ↔
      (mainRun c8okw []).crashed = false :=
  claim8_quit_iff_no_crash c8okw []

/-- A professor card with no href attribute. -/
def c9card : Card := ⟨some "Frank", none⟩

/-- Witness for C9: the card is kept and yields the malformed URL. -/
theorem claim9_witness :
    (parseCards [c9card]).length = 1 ∧
    parseCard c9card ∈ parseCards [c9card] ∧
    (parseCard c9card).rmp_link = "https://www.ratemyprofessors.comNone" := by
  have h := claim9_missing_href_malformed_url [c9card] c9card (by simp) rfl
  exact ⟨h.1, h.2.1, h.2.2⟩

/-- An existing row named X. -/
def c10r1 : ProfessorData :=
  ⟨"X", "https://www.ratemyprofessors.com/1", .int 1, .int 1, .int 1, .int 1, .int 1⟩

/-- A second existing row with the same name. -/
def c10r2 : ProfessorData :=
  ⟨"X", "https://www.ratemyprofessors.com/2", .int 2, .int 2, .int 2, .int 2, .int 2⟩

/-- The new record upserted under the duplicated name. -/
def c10d : ProfessorData :=
  ⟨"X", "https://www.ratemyprofessors.com/3", .int 9, .int 9, .int 9, .int 9, .int 9⟩

/-- Witness for C10: with two rows named X in the store, the upsert takes
the update path and both rows become the new record. -/
theorem claim10_witness :
    2 ≤ countName [c10r1, c10r2] c10d.name ∧
    (upsert [c10r1, c10r2] c10d).2 =
      [Event.storeSelect "X", Event.storeUpdate "X"] ∧
    (upsert [c10r1, c10r2] c10d).1 = [c10d, c10d] := by
  have h := claim10_update_overwrites_all_matching_rows [c10r1, c10r2] c10d (by decide)
  exact ⟨by decide, h.1, rfl⟩

end RMP
